import Mathlib

/-!
Shallow embedding of the PAA extractor core (`src/paa.js` and the row
construction of `src/sheets.js`), together with theorems settling the
specification claims about it.

Modelling conventions:
* JavaScript strings/undefined option fields become `Option String`;
  the JS `a || b` fallback on string-or-undefined values is `jsOr`.
* The upstream fetch seen by the traversal loop of `getPAA` is an oracle
  `fetch : Nat → String → Except JsError (List RawItem)` taking the index
  of the call (number of fetches already issued) and the query; a thrown
  JS error is `Except.error`.  The key-manager state and the fixed
  `region` parameter of a run are absorbed into the oracle.
* The `while` loop of `getPAA` and the self-recursion of `fetchPAAPage`
  are written with explicit fuel; theorems quantify over the fuel or use
  a fuel large enough for the concrete run.
* `loopPAA` additionally returns the ordered list of queries that were
  fetched (a ghost trace of the upstream calls), used to state
  fetch-order properties.
-/

/-- A JavaScript value passed as the `keyword` argument of `getPAA`
(`src/paa.js`, line 138): a string, or one of the non-string shapes the
validation at lines 141-143 must reject. -/
inductive JSVal where
  | str (s : String)
  | num (n : Int)
  | jsBool (b : Bool)
  | nullv
  | undef
deriving DecidableEq, Repr

/-- A raw related-question item as delivered by the upstream API
(the fields read by `mapQuestion`, `src/paa.js` lines 79-89). -/
structure RawItem where
  question : Option String := none
  snippet : Option String := none
  answer : Option String := none
  snippet_highlighted_words : Option (List String) := none
  link : Option String := none
  displayed_link : Option String := none
deriving DecidableEq, Repr

/-- The output record shape `{question, answer, link}` built by
`mapQuestion` (`src/paa.js` lines 80-88). -/
structure OutputRecord where
  question : String
  answer : String
  link : String
deriving DecidableEq, Repr

/-- JavaScript `a || b` where `a` is a string field that may be absent:
`undefined` and the empty string are falsy and fall through to `b`. -/
def jsOr (a : Option String) (b : String) : String :=
  match a with
  | none => b
  | some s => if s = "" then b else s

/-- `mapQuestion` (`src/paa.js` lines 79-89): map a raw item to the
output record, with the `snippet || answer || joined-highlights ||
"No answer available"` fallback chain for the answer and the
`link || displayed_link || ""` chain for the link. -/
def mapQuestion (item : RawItem) : OutputRecord :=
  { question := jsOr item.question ""
    answer :=
      jsOr item.snippet
        (jsOr item.answer
          (jsOr (item.snippet_highlighted_words.map (String.intercalate " "))
            "No answer available"))
    link := jsOr item.link (jsOr item.displayed_link "") }

/-- JavaScript `String.prototype.toLowerCase`, written over the
character list so that it evaluates by reduction. -/
def jsToLower (s : String) : String := ⟨s.data.map Char.toLower⟩

/-- JavaScript `String.prototype.trim`: drop whitespace at both ends,
written over the character list. -/
def jsTrim (s : String) : String :=
  ⟨((s.data.dropWhile Char.isWhitespace).reverse.dropWhile
      Char.isWhitespace).reverse⟩

/-- Substring occurrence on character lists, used to model JavaScript
`String.prototype.includes`. -/
def charsContain (pat : List Char) : List Char → Bool
  | [] => pat.isEmpty
  | c :: rest => pat.isPrefixOf (c :: rest) || charsContain pat rest

/-- The embedded-body rate-limit test of `fetchPAAPage`
(`src/paa.js` line 111): the lower-cased error message contains
`limit`, `quota` or `exceeded`. -/
def isLimitMsg (e : String) : Bool :=
  charsContain "limit".data (jsToLower e).data ||
    charsContain "quota".data (jsToLower e).data ||
    charsContain "exceeded".data (jsToLower e).data

/-- Splitting helper for the URL model: the characters before the first
occurrence of `://` and those after it, or `none` when there is no
occurrence. -/
def splitAtSep : List Char → Option (List Char × List Char)
  | [] => none
  | c :: rest =>
    if [':', '/', '/'].isPrefixOf (c :: rest) then some ([], rest.drop 2)
    else
      match splitAtSep rest with
      | some (pre, post) => some (c :: pre, post)
      | none => none

/-- Model of the platform WHATWG `new URL(url).hostname` access used by
`extractDomain` (`src/paa.js` line 65): a URL parses when it has an
alphabetic scheme followed by `://` and a non-empty host part; the
hostname is the host part up to the first `/`, `?`, `#` or `:`.
Parsing failure (the constructor throwing) is `none`. -/
def parseHostname (url : String) : Option String :=
  match splitAtSep url.data with
  | none => none
  | some (scheme, rest) =>
    if scheme.isEmpty then none
    else if !scheme.all Char.isAlpha then none
    else
      let host := rest.takeWhile
        (fun c => !(c == '/' || c == '?' || c == '#' || c == ':'))
      if host.isEmpty then none else some ⟨host⟩

/-- The `hostname.replace(/^www\./, "")` step of `extractDomain`
(`src/paa.js` line 66): strip one leading `www.`. -/
def stripWWW (h : String) : String :=
  if "www.".data.isPrefixOf h.data then ⟨h.data.drop 4⟩ else h

/-- `extractDomain` (`src/paa.js` lines 63-71): hostname of the URL with
a leading `www.` stripped, or `none` when the URL does not parse. -/
def extractDomain (url : String) : Option String :=
  match parseHostname url with
  | some h => some (stripWWW h)
  | none => none

/-- `buildQuery` (`src/paa.js` lines 73-77): the keyword alone when no
URL is supplied (or it is empty, hence falsy) or the domain cannot be
extracted (or is empty, hence falsy); otherwise
`"<keyword> site:<domain>"`. -/
def buildQuery (keyword : String) (url : Option String) : String :=
  match url with
  | none => keyword
  | some u =>
    if u = "" then keyword
    else
      match extractDomain u with
      | some d => if d = "" then keyword else keyword ++ " site:" ++ d
      | none => keyword

/-- The `KeyManager` state (`src/paa.js` lines 16-52): the parsed key
list, the active index, and the set (here: list) of exhausted indices. -/
structure KeyManager where
  keys : List String
  index : Nat
  exhausted : List Nat
deriving DecidableEq, Repr

/-- The scan of `KeyManager.rotate` (`src/paa.js` lines 36-43): probe
`start % len`, `(start+1) % len`, ... for the first index not in `ex`,
giving up after the given number of probes (the JS loop runs
`keys.length` times). -/
def scanNext (ex : List Nat) (len : Nat) : Nat → Nat → Option Nat
  | _, 0 => none
  | start, probes + 1 =>
    if start % len ∈ ex then scanNext ex len (start + 1) probes
    else some (start % len)

/-- `KeyManager.rotate` (`src/paa.js` lines 32-47): mark the active
index exhausted, then scan forward circularly from the next index for
the first non-exhausted index; on success move there and return `true`,
otherwise return `false` leaving the index unchanged. -/
def KeyManager.rotate (km : KeyManager) : KeyManager × Bool :=
  let ex := km.index :: km.exhausted
  match scanNext ex km.keys.length (km.index + 1) km.keys.length with
  | some next => ({ km with index := next, exhausted := ex }, true)
  | none => ({ km with exhausted := ex }, false)

/-- Errors thrown by the embedded JavaScript: the invalid-keyword throw
of `getPAA` (line 142), the missing-`SERPAPI_KEY` throw of
`KeyManager.current` (line 26), and an axios error carrying an optional
HTTP status (`error.response?.status`). -/
inductive JsError where
  | invalidInput
  | configError
  | axios (status : Option Nat)
deriving DecidableEq, Repr

/-- `KeyManager.current` (`src/paa.js` lines 24-29): the active key, or
a configuration error when the pool is empty. -/
def KeyManager.currentKey (km : KeyManager) : Except JsError String :=
  if km.keys.isEmpty then .error .configError
  else .ok (km.keys.getD km.index "")

/-- One upstream HTTP exchange as seen by `fetchPAAPage`: a 200 response
with an optional embedded body error and optional related questions, or
a thrown transport error with `error.response?.status`. -/
inductive FetchOutcome where
  | success (bodyError : Option String) (related : Option (List RawItem))
  | failure (status : Option Nat)
deriving DecidableEq, Repr

/-- `fetchPAAPage` (`src/paa.js` lines 95-131): one request with the
current key; an embedded limit/quota message or a 429 triggers
`rotate()` and a retry with the new key; when rotation fails the
embedded-message path falls through to `return []` while the 429 path
rethrows the original error; any truthy non-limit body error also
returns `[]`; any other thrown error propagates.  `upstream` maps
(query, region, key) to the exchange outcome; the fuel bounds the
retry recursion (each retry follows a successful rotation, so
`keys.length + 1` always suffices). -/
def fetchPAAPage (upstream : String → String → String → FetchOutcome)
    (query region : String) : KeyManager → Nat →
    Except JsError (List RawItem) × KeyManager
  | km, 0 => (.error .configError, km)
  | km, fuel + 1 =>
    match km.currentKey with
    | .error e => (.error e, km)
    | .ok key =>
      match upstream query region key with
      | .success bodyError related =>
        match bodyError with
        | some e =>
          if e = "" then (.ok (related.getD []), km)
          else if isLimitMsg e then
            match km.rotate with
            | (km1, true) => fetchPAAPage upstream query region km1 fuel
            | (km1, false) => (.ok [], km1)
          else (.ok [], km)
        | none => (.ok (related.getD []), km)
      | .failure status =>
        if status = some 429 then
          match km.rotate with
          | (km1, true) => fetchPAAPage upstream query region km1 fuel
          | (km1, false) => (.error (.axios status), km1)
        else (.error (.axios status), km)

/-- The inner `for (const item of rawQuestions)` loop of `getPAA`
(`src/paa.js` lines 161-171): skip items with an empty question or an
already-seen lower-cased question; otherwise record the lower-cased
question as seen, append the mapped record, and enqueue the question
text when the new result count is still below the target.
Returns the updated (seen, results, queue). -/
def processItems (maxQ : Nat) :
    List RawItem → List String → List OutputRecord → List String →
    List String × List OutputRecord × List String
  | [], seen, results, queue => (seen, results, queue)
  | item :: rest, seen, results, queue =>
    let q := jsOr item.question ""
    if q = "" ∨ jsToLower q ∈ seen then
      processItems maxQ rest seen results queue
    else
      let results1 := results ++ [mapQuestion item]
      processItems maxQ rest (jsToLower q :: seen) results1
        (if results1.length < maxQ then queue ++ [q] else queue)

/-- The `while (results.length < maxQuestions && queue.length > 0)` loop
of `getPAA` together with its surrounding `try/catch`
(`src/paa.js` lines 152-194): dequeue a query, fetch its page, process
its items; a thrown fetch error is caught and the results accumulated so
far are returned.  The second component of the result is the ghost trace
of queries fetched, in order. -/
def loopPAA (fetch : Nat → String → Except JsError (List RawItem))
    (maxQ : Nat) :
    Nat → List String → List OutputRecord → List String → List String →
    List OutputRecord × List String
  | 0, _, results, _, trace => (results, trace)
  | fuel + 1, seen, results, queue, trace =>
    match queue with
    | [] => (results, trace)
    | cq :: rest =>
      if results.length < maxQ then
        match fetch trace.length cq with
        | .error _ => (results, trace ++ [cq])
        | .ok raw =>
          let s := processItems maxQ raw seen results rest
          loopPAA fetch maxQ fuel s.1 s.2.1 s.2.2 (trace ++ [cq])
      else (results, trace)

/-- The keyword check of `getPAA` (`src/paa.js` line 141):
`!keyword || typeof keyword !== "string"` rejects exactly the values
that are not truthy strings. -/
def keywordValid : JSVal → Bool
  | .str s => !(s == "")
  | _ => false

/-- Default for the `maxQuestions` parameter
(`DEFAULT_MAX_QUESTIONS`, `src/paa.js` line 12). -/
def DEFAULT_MAX_QUESTIONS : Nat := 12

/-- `getPAA` (`src/paa.js` lines 138-195): validate the keyword, build
the initial query from the trimmed keyword and the optional URL, and run
the traversal loop seeded with that query.  Returns the record list and
the fetch trace, or the invalid-input error. -/
def getPAA (fetch : Nat → String → Except JsError (List RawItem))
    (keyword : JSVal) (url : Option String) (maxQuestions fuel : Nat) :
    Except JsError (List OutputRecord × List String) :=
  match keyword with
  | .str s =>
    if s = "" then .error .invalidInput
    else .ok (loopPAA fetch maxQuestions fuel [] []
                [buildQuery (jsTrim s) url] [])
  | _ => .error .invalidInput

/-- The row construction of `appendToSheet` (`src/sheets.js` lines
66-76): one row `[url || "", keyword, region, question]` per record, or
a single placeholder row when there are no records. -/
def appendRows (keyword region : String) (url : Option String)
    (results : List OutputRecord) : List (List String) :=
  let rows := results.map (fun item => [jsOr url "", keyword, region, item.question])
  if rows = [] then [[jsOr url "", keyword, region, "No PAA questions found"]]
  else rows

/-- A raw item carrying only a question text, used in concrete runs. -/
def itemQ (s : String) : RawItem := { question := some s }

/-- Concrete oracle for the cap claim: the query `k` yields two items,
every other query yields none. -/
def pageCap : Nat → String → Except JsError (List RawItem) :=
  fun _ q => if q = "k" then .ok [itemQ "A", itemQ "B"] else .ok []

/-- Concrete oracle for the breadth-first claim: `Q0` yields `Q1, Q2`
and `Q1` yields `Q3`. -/
def pageBfs : Nat → String → Except JsError (List RawItem) :=
  fun _ q =>
    if q = "Q0" then .ok [itemQ "Q1", itemQ "Q2"]
    else if q = "Q1" then .ok [itemQ "Q3"]
    else .ok []

/-- Concrete oracle returning an empty page for every query. -/
def pageNone : Nat → String → Except JsError (List RawItem) :=
  fun _ _ => .ok []

/-- Concrete oracle for the end-to-end claim: the query `test keyword`
yields one item with only a question. -/
def pageSingle : Nat → String → Except JsError (List RawItem) :=
  fun _ q =>
    if q = "test keyword" then .ok [itemQ "Test Question?"] else .ok []

/-- Concrete oracle whose every fetch throws a non-429 axios error. -/
def pageErr : Nat → String → Except JsError (List RawItem) :=
  fun _ _ => .error (.axios none)

/-- Concrete upstream behaviour answering every exchange with a 429. -/
def upstream429 : String → String → String → FetchOutcome :=
  fun _ _ _ => .failure (some 429)

/-- Concrete upstream behaviour answering every exchange with a 200
response carrying an embedded quota message. -/
def upstreamQuota : String → String → String → FetchOutcome :=
  fun _ _ _ => .success (some "Quota exceeded") none

/-! Helper lemmas about the traversal loop. -/

/-- Unfolding the loop at an empty frontier. -/
theorem loopPAA_nil (fetch : Nat → String → Except JsError (List RawItem))
    (maxQ fuel : Nat) (seen : List String) (results : List OutputRecord)
    (trace : List String) :
    loopPAA fetch maxQ (fuel + 1) seen results [] trace = (results, trace) := rfl

/-- Unfolding the loop when the target count has been reached. -/
theorem loopPAA_stop (fetch : Nat → String → Except JsError (List RawItem))
    (maxQ fuel : Nat) (seen : List String) (results : List OutputRecord)
    (cq : String) (rest trace : List String)
    (hcap : ¬ results.length < maxQ) :
    loopPAA fetch maxQ (fuel + 1) seen results (cq :: rest) trace =
      (results, trace) := by
  simp [loopPAA, hcap]

/-- A fetch that throws ends the loop at once with the results
accumulated so far (the catch of `getPAA`). -/
theorem loopPAA_error_step (fetch : Nat → String → Except JsError (List RawItem))
    (maxQ fuel : Nat) (seen : List String) (results : List OutputRecord)
    (cq : String) (rest trace : List String) (e : JsError)
    (hcap : results.length < maxQ) (hf : fetch trace.length cq = .error e) :
    loopPAA fetch maxQ (fuel + 1) seen results (cq :: rest) trace =
      (results, trace ++ [cq]) := by
  simp [loopPAA, hcap, hf]

/-- Unfolding the loop over a successful fetch. -/
theorem loopPAA_ok_step (fetch : Nat → String → Except JsError (List RawItem))
    (maxQ fuel : Nat) (seen : List String) (results : List OutputRecord)
    (cq : String) (rest trace : List String) (raw : List RawItem)
    (hcap : results.length < maxQ) (hf : fetch trace.length cq = .ok raw) :
    loopPAA fetch maxQ (fuel + 1) seen results (cq :: rest) trace =
      loopPAA fetch maxQ fuel (processItems maxQ raw seen results rest).1
        (processItems maxQ raw seen results rest).2.1
        (processItems maxQ raw seen results rest).2.2 (trace ++ [cq]) := by
  simp [loopPAA, hcap, hf]

/-- Processing a page grows the result list by at most the page size. -/
theorem processItems_length_le (maxQ : Nat) :
    ∀ (items : List RawItem) (seen : List String) (results : List OutputRecord)
      (queue : List String),
    (processItems maxQ items seen results queue).2.1.length ≤
      results.length + items.length := by
  intro items
  induction items with
  | nil => intro seen results queue; simp [processItems]
  | cons item rest ih =>
    intro seen results queue
    simp only [processItems]
    split
    · exact le_trans (ih ..) (by simp only [List.length_cons]; omega)
    · refine le_trans (ih ..) ?_
      simp only [List.length_append, List.length_cons, List.length_nil]
      omega

/-- An item whose derived question text is empty is skipped entirely:
it changes none of seen, results, queue. -/
theorem processItems_skip (maxQ : Nat) (item : RawItem) (rest : List RawItem)
    (seen : List String) (results : List OutputRecord) (queue : List String)
    (h : jsOr item.question "" = "") :
    processItems maxQ (item :: rest) seen results queue =
      processItems maxQ rest seen results queue := by
  simp [processItems, h]

/-- Invariants preserved by the page-processing step: every recorded
question is marked seen, questions stay non-empty, and the records stay
pairwise distinct under lower-casing. -/
theorem processItems_inv (maxQ : Nat) :
    ∀ (items : List RawItem) (seen : List String) (results : List OutputRecord)
      (queue : List String),
    (∀ r ∈ results, jsToLower r.question ∈ seen) →
    (∀ r ∈ (processItems maxQ items seen results queue).2.1,
        jsToLower r.question ∈ (processItems maxQ items seen results queue).1) ∧
    ((∀ r ∈ results, r.question ≠ "") →
       ∀ r ∈ (processItems maxQ items seen results queue).2.1, r.question ≠ "") ∧
    (results.Pairwise (fun a b => jsToLower a.question ≠ jsToLower b.question) →
       (processItems maxQ items seen results queue).2.1.Pairwise
         (fun a b => jsToLower a.question ≠ jsToLower b.question)) := by
  intro items
  induction items with
  | nil =>
    intro seen results queue hcouple
    simp only [processItems]
    exact ⟨hcouple, fun h => h, fun h => h⟩
  | cons item rest ih =>
    intro seen results queue hcouple
    simp only [processItems]
    split
    · exact ih seen results queue hcouple
    · rename_i hguard
      have hq : jsOr item.question "" ≠ "" ∧
          jsToLower (jsOr item.question "") ∉ seen := by
        constructor <;> intro hc <;> exact hguard (by simp [hc])
      have hcouple1 : ∀ r ∈ results ++ [mapQuestion item],
          jsToLower r.question ∈ jsToLower (jsOr item.question "") :: seen := by
        intro r hr
        rcases List.mem_append.mp hr with hr | hr
        · exact List.mem_cons_of_mem _ (hcouple r hr)
        · simp only [List.mem_singleton] at hr
          subst hr
          simp [mapQuestion]
      have hmain := ih (jsToLower (jsOr item.question "") :: seen)
        (results ++ [mapQuestion item])
        (if (results ++ [mapQuestion item]).length < maxQ then
           queue ++ [jsOr item.question ""] else queue) hcouple1
      refine ⟨hmain.1, ?_, ?_⟩
      · intro hne
        refine hmain.2.1 ?_
        intro r hr
        rcases List.mem_append.mp hr with hr | hr
        · exact hne r hr
        · simp only [List.mem_singleton] at hr
          subst hr
          simpa [mapQuestion] using hq.1
      · intro hpw
        refine hmain.2.2 ?_
        refine List.pairwise_append.mpr ⟨hpw, List.pairwise_singleton .., ?_⟩
        intro a ha b hb
        simp only [List.mem_singleton] at hb
        subst hb
        have hmem : jsToLower a.question ∈ seen := hcouple a ha
        intro heq
        apply hq.2
        have hmq : (mapQuestion item).question = jsOr item.question "" := rfl
        rw [← hmq, ← heq]
        exact hmem

/-- The loop preserves the non-empty-question and dedup invariants. -/
theorem loopPAA_inv (fetch : Nat → String → Except JsError (List RawItem))
    (maxQ : Nat) :
    ∀ (fuel : Nat) (seen : List String) (results : List OutputRecord)
      (queue trace : List String),
    (∀ r ∈ results, jsToLower r.question ∈ seen) →
    ((∀ r ∈ results, r.question ≠ "") →
       ∀ r ∈ (loopPAA fetch maxQ fuel seen results queue trace).1,
         r.question ≠ "") ∧
    (results.Pairwise (fun a b => jsToLower a.question ≠ jsToLower b.question) →
       (loopPAA fetch maxQ fuel seen results queue trace).1.Pairwise
         (fun a b => jsToLower a.question ≠ jsToLower b.question)) := by
  intro fuel
  induction fuel with
  | zero =>
    intro seen results queue trace hcouple
    exact ⟨fun h => h, fun h => h⟩
  | succ fuel ih =>
    intro seen results queue trace hcouple
    match queue with
    | [] => rw [loopPAA_nil]; exact ⟨fun h => h, fun h => h⟩
    | cq :: rest =>
      by_cases hcap : results.length < maxQ
      · match hf : fetch trace.length cq with
        | .error e =>
          rw [loopPAA_error_step fetch maxQ fuel seen results cq rest trace e hcap hf]
          exact ⟨fun h => h, fun h => h⟩
        | .ok raw =>
          rw [loopPAA_ok_step fetch maxQ fuel seen results cq rest trace raw hcap hf]
          have hp := processItems_inv maxQ raw seen results rest hcouple
          have hloop := ih (processItems maxQ raw seen results rest).1
            (processItems maxQ raw seen results rest).2.1
            (processItems maxQ raw seen results rest).2.2 (trace ++ [cq]) hp.1
          exact ⟨fun h => hloop.1 (hp.2.1 h), fun h => hloop.2 (hp.2.2 h)⟩
      · rw [loopPAA_stop fetch maxQ fuel seen results cq rest trace hcap]
        exact ⟨fun h => h, fun h => h⟩

/-- The loop never pushes the result length past `maxQ - 1` plus one
page, provided every fetched page has at most `L` items. -/
theorem loopPAA_length_le (fetch : Nat → String → Except JsError (List RawItem))
    (maxQ L : Nat)
    (hL : ∀ n q raw, fetch n q = .ok raw → raw.length ≤ L) :
    ∀ (fuel : Nat) (seen : List String) (results : List OutputRecord)
      (queue trace : List String),
    results.length ≤ maxQ - 1 + L →
    (loopPAA fetch maxQ fuel seen results queue trace).1.length ≤
      maxQ - 1 + L := by
  intro fuel
  induction fuel with
  | zero => intro seen results queue trace hlen; exact hlen
  | succ fuel ih =>
    intro seen results queue trace hlen
    match queue with
    | [] => rw [loopPAA_nil]; exact hlen
    | cq :: rest =>
      by_cases hcap : results.length < maxQ
      · match hf : fetch trace.length cq with
        | .error e =>
          rw [loopPAA_error_step fetch maxQ fuel seen results cq rest trace e hcap hf]
          exact hlen
        | .ok raw =>
          rw [loopPAA_ok_step fetch maxQ fuel seen results cq rest trace raw hcap hf]
          have h1 := processItems_length_le maxQ raw seen results rest
          have h2 : raw.length ≤ L := hL _ _ _ hf
          exact ih (processItems maxQ raw seen results rest).1
            (processItems maxQ raw seen results rest).2.1
            (processItems maxQ raw seen results rest).2.2 (trace ++ [cq])
            (by omega)
      · rw [loopPAA_stop fetch maxQ fuel seen results cq rest trace hcap]
        exact hlen

/-- A run of `getPAA` on an invalid keyword is the invalid-input error. -/
theorem getPAA_invalid_eq (fetch : Nat → String → Except JsError (List RawItem))
    (kw : JSVal) (url : Option String) (maxQ fuel : Nat)
    (hv : keywordValid kw = false) :
    getPAA fetch kw url maxQ fuel = .error .invalidInput := by
  cases kw with
  | str s =>
    simp only [keywordValid, Bool.not_eq_false'] at hv
    have hs : s = "" := by simpa using hv
    simp [getPAA, hs]
  | num n => rfl
  | jsBool b => rfl
  | nullv => rfl
  | undef => rfl

/-- A run of `getPAA` on a valid keyword is the seeded loop. -/
theorem getPAA_valid_eq (fetch : Nat → String → Except JsError (List RawItem))
    (s : String) (url : Option String) (maxQ fuel : Nat) (hs : s ≠ "") :
    getPAA fetch (JSVal.str s) url maxQ fuel =
      .ok (loopPAA fetch maxQ fuel [] [] [buildQuery (jsTrim s) url] []) := by
  simp [getPAA, hs]

/-- Elimination form: a successful `getPAA` run comes from a non-empty
string keyword and equals the seeded loop. -/
theorem getPAA_ok_elim (fetch : Nat → String → Except JsError (List RawItem))
    (kw : JSVal) (url : Option String) (maxQ fuel : Nat)
    (rs : List OutputRecord) (tr : List String)
    (h : getPAA fetch kw url maxQ fuel = .ok (rs, tr)) :
    ∃ s, kw = JSVal.str s ∧ s ≠ "" ∧
      (rs, tr) = loopPAA fetch maxQ fuel [] [] [buildQuery (jsTrim s) url] [] := by
  cases kw with
  | str s =>
    by_cases hs : s = ""
    · rw [getPAA_invalid_eq fetch _ url maxQ fuel (by simp [keywordValid, hs])] at h
      exact absurd h (by simp)
    · rw [getPAA_valid_eq fetch s url maxQ fuel hs] at h
      exact ⟨s, rfl, hs, by injection h with h1; rw [← h1]⟩
  | num n => exact absurd h (by simp [getPAA])
  | jsBool b => exact absurd h (by simp [getPAA])
  | nullv => exact absurd h (by simp [getPAA])
  | undef => exact absurd h (by simp [getPAA])

/-- A failed scan means every probed index was exhausted. -/
theorem scanNext_none_probe (ex : List Nat) (len : Nat) :
    ∀ (probes start : Nat), scanNext ex len start probes = none →
    ∀ i < probes, (start + i) % len ∈ ex := by
  intro probes
  induction probes with
  | zero => intro start _ i hi; omega
  | succ probes ih =>
    intro start h i hi
    simp only [scanNext] at h
    split at h
    · rename_i hmem
      match i with
      | 0 => simpa using hmem
      | j + 1 =>
        have := ih (start + 1) h j (by omega)
        have harith : start + 1 + j = start + (j + 1) := by omega
        rwa [harith] at this
    · exact absurd h (by simp)

/-- A successful scan returns the first non-exhausted probed index. -/
theorem scanNext_some_probe (ex : List Nat) (len : Nat) :
    ∀ (probes start m : Nat), scanNext ex len start probes = some m →
    ∃ i, i < probes ∧ m = (start + i) % len ∧ m ∉ ex ∧
      ∀ j < i, (start + j) % len ∈ ex := by
  intro probes
  induction probes with
  | zero => intro start m h; exact absurd h (by simp [scanNext])
  | succ probes ih =>
    intro start m h
    simp only [scanNext] at h
    split at h
    · rename_i hmem
      obtain ⟨i, hi, hm, hnot, hfirst⟩ := ih (start + 1) m h
      refine ⟨i + 1, by omega, ?_, hnot, ?_⟩
      · rwa [show start + (i + 1) = start + 1 + i by omega]
      · intro j hj
        match j with
        | 0 => simpa using hmem
        | j + 1 =>
          have := hfirst j (by omega)
          rwa [show start + 1 + j = start + (j + 1) by omega] at this
    · rename_i hmem
      refine ⟨0, by omega, ?_, ?_, by omega⟩
      · injection h with h1; rw [← h1]; simp
      · injection h with h1; rw [← h1]; exact hmem

/-- Every residue below `len` is hit by some probe offset below `len`. -/
theorem exists_probe_eq (len s j : Nat) (hj : j < len) :
    ∃ i, i < len ∧ (s + i) % len = j := by
  have hlen : 0 < len := by omega
  refine ⟨(j + len - s % len) % len, Nat.mod_lt _ hlen, ?_⟩
  have hs : s % len < len := Nat.mod_lt _ hlen
  have h1 : s % len ≤ j + len := by omega
  calc (s + (j + len - s % len) % len) % len
      = (s + (j + len - s % len)) % len := Nat.add_mod_mod ..
    _ = (s % len + (j + len - s % len)) % len := (Nat.mod_add_mod ..).symm
    _ = (j + len) % len := by rw [Nat.add_sub_cancel' h1]
    _ = j % len := Nat.add_mod_right ..
    _ = j := Nat.mod_eq_of_lt hj

/-- A valid (truthy string) keyword always yields a successful run. -/
theorem getPAA_valid_ok (fetch : Nat → String → Except JsError (List RawItem))
    (kw : JSVal) (url : Option String) (maxQ fuel : Nat)
    (hv : keywordValid kw = true) :
    ∃ rs tr, getPAA fetch kw url maxQ fuel = .ok (rs, tr) := by
  cases kw with
  | str s =>
    have hs : s ≠ "" := by
      intro hc; subst hc; simp [keywordValid] at hv
    exact ⟨(loopPAA fetch maxQ fuel [] [] [buildQuery (jsTrim s) url] []).1,
      (loopPAA fetch maxQ fuel [] [] [buildQuery (jsTrim s) url] []).2,
      by rw [getPAA_valid_eq fetch s url maxQ fuel hs]⟩
  | num n => simp [keywordValid] at hv
  | jsBool b => simp [keywordValid] at hv
  | nullv => simp [keywordValid] at hv
  | undef => simp [keywordValid] at hv

/-- C6: `rotate()` marks the currently active index exhausted and scans
forward circularly from the next index for the first non-exhausted
index; on success that index becomes active, otherwise the call reports
failure and the active index is unchanged.  Consequently, for a pool of
3 credentials receiving 3 consecutive rate-limit signals, the first two
rotations succeed, the 3rd `rotate()` returns failure, and no 4th
credential is produced (the index stays at the 3rd credential). -/
theorem keyManager_rotate_spec (km : KeyManager) :
    (km.rotate.1.keys = km.keys ∧
     km.rotate.1.exhausted = km.index :: km.exhausted) ∧
    (km.rotate.2 = false →
       km.rotate.1.index = km.index ∧
       ∀ j < km.keys.length, j ∈ km.rotate.1.exhausted) ∧
    (km.rotate.2 = true →
       ∃ i, i < km.keys.length ∧
         km.rotate.1.index = (km.index + 1 + i) % km.keys.length ∧
         km.rotate.1.index ∉ km.index :: km.exhausted ∧
         ∀ j < i,
           (km.index + 1 + j) % km.keys.length ∈ km.index :: km.exhausted) ∧
    ((KeyManager.mk ["k1", "k2", "k3"] 0 []).rotate.2 = true ∧
     (KeyManager.mk ["k1", "k2", "k3"] 0 []).rotate.1.rotate.2 = true ∧
     (KeyManager.mk ["k1", "k2", "k3"] 0 []).rotate.1.rotate.1.rotate.2 = false ∧
     (KeyManager.mk ["k1", "k2", "k3"] 0 []).rotate.1.rotate.1.rotate.1.index = 2) := by
  rcases hscan : scanNext (km.index :: km.exhausted) km.keys.length
      (km.index + 1) km.keys.length with _ | next
  · have hrot : km.rotate =
        ({ km with exhausted := km.index :: km.exhausted }, false) := by
      simp [KeyManager.rotate, hscan]
    refine ⟨⟨by rw [hrot], by rw [hrot]⟩, ?_, ?_, by decide⟩
    · intro _
      refine ⟨by rw [hrot], ?_⟩
      intro j hj
      obtain ⟨i, hi, hij⟩ := exists_probe_eq km.keys.length (km.index + 1) j hj
      have hmem := scanNext_none_probe _ _ _ _ hscan i hi
      rw [hrot]
      rw [hij] at hmem
      exact hmem
    · intro hc
      rw [hrot] at hc
      exact absurd hc (by simp)
  · have hrot : km.rotate =
        ({ km with index := next, exhausted := km.index :: km.exhausted },
         true) := by
      simp [KeyManager.rotate, hscan]
    obtain ⟨i, hi, hm, hnot, hfirst⟩ := scanNext_some_probe _ _ _ _ _ hscan
    refine ⟨⟨by rw [hrot], by rw [hrot]⟩, ?_, ?_, by decide⟩
    · intro hc
      rw [hrot] at hc
      exact absurd hc (by simp)
    · intro _
      refine ⟨i, hi, ?_, ?_, fun j hj => hfirst j hj⟩
      · rw [hrot]; exact hm
      · rw [hrot]; exact hnot

/-- Witness for C6: on a single fully-exhausted credential the rotation
fails and the active index is unchanged. -/
theorem keyManager_rotate_spec_witness :
    (KeyManager.mk ["a"] 0 []).rotate.1.index = 0 :=
  ((keyManager_rotate_spec (KeyManager.mk ["a"] 0 [])).2.1 rfl).1

/-- C8: `buildQuery` returns the keyword alone when no URL is supplied
or the URL is unparsable (silent degradation, no error), and returns
`"<keyword> site:<domain>"` with the leading `www.` stripped when the
URL parses to a usable domain; in particular on the two concrete inputs
of the claim. -/
theorem buildQuery_spec :
    (∀ kw : String, buildQuery kw none = kw) ∧
    (∀ kw u : String, extractDomain u = none → buildQuery kw (some u) = kw) ∧
    (∀ kw u d : String, extractDomain u = some d → d ≠ "" →
        buildQuery kw (some u) = kw ++ " site:" ++ d) ∧
    buildQuery "best crm" (some "https://www.example.com/x") =
      "best crm site:example.com" ∧
    buildQuery "best crm" (some "not a url") = "best crm" := by
  refine ⟨fun kw => rfl, ?_, ?_, rfl, rfl⟩
  · intro kw u h
    by_cases hu : u = ""
    · simp [buildQuery, hu]
    · simp [buildQuery, hu, h]
  · intro kw u d h hd
    by_cases hu : u = ""
    · subst hu
      have h0 : extractDomain "" = none := rfl
      rw [h0] at h
      exact absurd h (by simp)
    · simp [buildQuery, hu, h, hd]

/-- Witness for C8: the site-scoped branch applied at the claim's
concrete input. -/
theorem buildQuery_spec_witness :
    buildQuery "best crm" (some "https://www.example.com/x") =
      "best crm" ++ " site:" ++ "example.com" :=
  buildQuery_spec.2.2.1 "best crm" "https://www.example.com/x" "example.com"
    rfl (by decide)

/-- C9: an item with only a question maps to the record with the
placeholder answer and empty link; the end-to-end run on keyword
`test keyword` with one upstream page of one such item returns exactly
that record, and the sheet-row construction turns it into the single
row `["", "test keyword", "us", "Test Question?"]`. -/
theorem getPAA_end_to_end :
    mapQuestion (itemQ "Test Question?") =
      ⟨"Test Question?", "No answer available", ""⟩ ∧
    getPAA pageSingle (JSVal.str "test keyword") none 12 5 =
      .ok ([⟨"Test Question?", "No answer available", ""⟩],
           ["test keyword", "Test Question?"]) ∧
    appendRows "test keyword" "us" none
        [⟨"Test Question?", "No answer available", ""⟩] =
      [["", "test keyword", "us", "Test Question?"]] :=
  ⟨rfl, rfl, rfl⟩

/-- C4: when the pool cannot rotate any further, a transport-level 429
propagates as the original error while an embedded limit/quota body
message degrades to an empty item list. -/
theorem fetchPAAPage_exhausted_pool
    (upstream : String → String → String → FetchOutcome)
    (query region key : String) (km : KeyManager) (fuel : Nat)
    (hkey : km.currentKey = Except.ok key)
    (hrot : km.rotate.2 = false) :
    (upstream query region key = .failure (some 429) →
       (fetchPAAPage upstream query region km (fuel + 1)).1 =
         .error (.axios (some 429))) ∧
    (∀ (e : String) (related : Option (List RawItem)),
       upstream query region key = .success (some e) related →
       isLimitMsg e = true →
       (fetchPAAPage upstream query region km (fuel + 1)).1 = .ok []) := by
  rcases hkm : km.rotate with ⟨km1, b⟩
  rw [hkm] at hrot
  simp only at hrot
  subst hrot
  constructor
  · intro h429
    simp only [fetchPAAPage, hkey, h429]
    simp [hkm]
  · intro e related hsucc hlim
    have hne : e ≠ "" := by
      intro hc; subst hc; exact absurd hlim (by decide)
    simp only [fetchPAAPage, hkey, hsucc]
    simp [hne, hlim, hkm]

/-- Witness for C4: a one-credential pool that is already exhausted
after marking; the 429 exchange propagates, the quota-message exchange
degrades to an empty list. -/
theorem fetchPAAPage_exhausted_pool_witness :
    (fetchPAAPage upstream429 "q" "us" (KeyManager.mk ["a"] 0 []) 1).1 =
      .error (.axios (some 429)) ∧
    (fetchPAAPage upstreamQuota "q" "us" (KeyManager.mk ["a"] 0 []) 1).1 =
      .ok [] :=
  ⟨(fetchPAAPage_exhausted_pool upstream429 "q" "us" "a"
      (KeyManager.mk ["a"] 0 []) 0 rfl rfl).1 rfl,
   (fetchPAAPage_exhausted_pool upstreamQuota "q" "us" "a"
      (KeyManager.mk ["a"] 0 []) 0 rfl rfl).2 "Quota exceeded" none rfl
     (by decide)⟩

/-- C1 counterexample: with target count 1 and a page of two fresh
items, the collector returns 2 records — the result length is not
bounded by the target count. -/
theorem getPAA_cap_exceeded_cex :
    getPAA pageCap (JSVal.str "k") none 1 5 =
      .ok ([⟨"A", "No answer available", ""⟩, ⟨"B", "No answer available", ""⟩],
           ["k"]) ∧
    ¬ ([(⟨"A", "No answer available", ""⟩ : OutputRecord),
        ⟨"B", "No answer available", ""⟩].length ≤ 1) :=
  ⟨rfl, by decide⟩

/-- C1 amended: a new page is fetched only while fewer than `N` records
are accumulated, so when every fetched page carries at most `L` items
the result length is at most `N - 1 + L` (the cap can be overshot only
by the items of the final page). -/
theorem getPAA_cap_amended (fetch : Nat → String → Except JsError (List RawItem))
    (kw : JSVal) (url : Option String) (N L fuel : Nat)
    (hN : 0 < N)
    (hL : ∀ (n : Nat) (q : String) (raw : List RawItem),
        fetch n q = .ok raw → raw.length ≤ L)
    (rs : List OutputRecord) (tr : List String)
    (h : getPAA fetch kw url N fuel = .ok (rs, tr)) :
    rs.length ≤ N - 1 + L := by
  obtain ⟨s, _, _, heq⟩ := getPAA_ok_elim fetch kw url N fuel rs tr h
  have hloop := loopPAA_length_le fetch N L hL fuel [] []
    [buildQuery (jsTrim s) url] [] (by simp)
  rw [← heq] at hloop
  exact hloop

/-- Witness for C1 amended: the overshooting run stays within
`N - 1 + L` for its page bound `L = 2`. -/
theorem getPAA_cap_amended_witness :
    (0 : Nat) < 1 ∧
    ([(⟨"A", "No answer available", ""⟩ : OutputRecord),
      ⟨"B", "No answer available", ""⟩].length ≤ 1 - 1 + 2) :=
  ⟨Nat.one_pos,
   getPAA_cap_amended pageCap (JSVal.str "k") none 1 2 5 Nat.one_pos
     (fun n q raw hr => by
        simp only [pageCap] at hr
        split at hr
        · injection hr with h1; rw [← h1]; decide
        · injection hr with h1; rw [← h1]; decide)
     _ ["k"] rfl⟩

/-- C2 counterexample: in the claimed scenario with target count 3 the
run fetches only `Q0` and `Q1` — `Q2` is never fetched, so it is not
fetched before `Q3`. -/
theorem getPAA_bfs_cex :
    getPAA pageBfs (JSVal.str "Q0") none 3 10 =
      .ok ([⟨"Q1", "No answer available", ""⟩, ⟨"Q2", "No answer available", ""⟩,
            ⟨"Q3", "No answer available", ""⟩], ["Q0", "Q1"]) ∧
    "Q2" ∉ (["Q0", "Q1"] : List String) :=
  ⟨rfl, by decide⟩

/-- C2 amended: in the same scenario with target count 4 the FIFO
frontier fetches `Q0, Q1, Q2, Q3` in order, so `Q1` and `Q2` are both
fetched before `Q3`. -/
theorem getPAA_bfs_amended :
    getPAA pageBfs (JSVal.str "Q0") none 4 10 =
      .ok ([⟨"Q1", "No answer available", ""⟩, ⟨"Q2", "No answer available", ""⟩,
            ⟨"Q3", "No answer available", ""⟩], ["Q0", "Q1", "Q2", "Q3"]) ∧
    List.indexOf "Q1" ["Q0", "Q1", "Q2", "Q3"] <
      List.indexOf "Q3" ["Q0", "Q1", "Q2", "Q3"] ∧
    List.indexOf "Q2" ["Q0", "Q1", "Q2", "Q3"] <
      List.indexOf "Q3" ["Q0", "Q1", "Q2", "Q3"] :=
  ⟨rfl, by decide, by decide⟩

/-- C3 counterexample: a whitespace-only keyword is truthy and a string,
so it passes the check and the run succeeds (with the empty query as the
seed) instead of failing with an invalid-input error. -/
theorem getPAA_whitespace_keyword_cex :
    getPAA pageNone (JSVal.str " ") none 12 3 = .ok ([], [""]) ∧
    jsTrim " " = "" :=
  ⟨rfl, rfl⟩

/-- C3 amended: the collector fails with the invalid-input error exactly
for keywords that are missing, not a string, or the empty string; any
non-empty string — including whitespace-only ones — passes validation
and yields a normal run. -/
theorem getPAA_keyword_validation_amended
    (fetch : Nat → String → Except JsError (List RawItem))
    (kw : JSVal) (url : Option String) (maxQ fuel : Nat) :
    (keywordValid kw = false →
       getPAA fetch kw url maxQ fuel = .error .invalidInput) ∧
    (keywordValid kw = true →
       ∃ rs tr, getPAA fetch kw url maxQ fuel = .ok (rs, tr)) :=
  ⟨getPAA_invalid_eq fetch kw url maxQ fuel,
   getPAA_valid_ok fetch kw url maxQ fuel⟩

/-- Witness for C3 amended: a missing (undefined) keyword fails with the
invalid-input error. -/
theorem getPAA_keyword_validation_amended_witness :
    getPAA pageNone JSVal.undef none 12 3 = .error .invalidInput :=
  (getPAA_keyword_validation_amended pageNone JSVal.undef none 12 3).1 rfl

/-- C5: the collector never throws for upstream conditions — a valid
keyword always yields a successful run whatever the fetch does — and
when a fetch throws partway through the loop, the loop ends at once
returning exactly the results accumulated so far. -/
theorem getPAA_error_partial_results
    (fetch : Nat → String → Except JsError (List RawItem))
    (maxQ fuel : Nat) (seen : List String) (results : List OutputRecord)
    (trace : List String) :
    (∀ (kw : JSVal) (url : Option String), keywordValid kw = true →
       ∃ rs tr, getPAA fetch kw url maxQ fuel = .ok (rs, tr)) ∧
    (∀ (cq : String) (rest : List String) (e : JsError),
       results.length < maxQ → fetch trace.length cq = .error e →
       loopPAA fetch maxQ (fuel + 1) seen results (cq :: rest) trace =
         (results, trace ++ [cq])) :=
  ⟨fun kw url hv => getPAA_valid_ok fetch kw url maxQ fuel hv,
   fun cq rest e hcap hf =>
     loopPAA_error_step fetch maxQ fuel seen results cq rest trace e hcap hf⟩

/-- Witness for C5: a loop whose first fetch throws returns the
(empty) accumulated results. -/
theorem getPAA_error_partial_results_witness :
    loopPAA pageErr 12 1 [] [] ["q"] [] = ([], ["q"]) :=
  (getPAA_error_partial_results pageErr 12 0 [] [] []).2 "q" []
    (.axios none) (by decide) rfl

/-- C7: no two records of a single collector run have question texts
that are equal after lower-casing — the seen-set deduplication is
case-insensitive on exact question text. -/
theorem getPAA_dedup_pairwise
    (fetch : Nat → String → Except JsError (List RawItem))
    (kw : JSVal) (url : Option String) (maxQ fuel : Nat)
    (rs : List OutputRecord) (tr : List String)
    (h : getPAA fetch kw url maxQ fuel = .ok (rs, tr)) :
    rs.Pairwise (fun a b => jsToLower a.question ≠ jsToLower b.question) := by
  obtain ⟨s, _, _, heq⟩ := getPAA_ok_elim fetch kw url maxQ fuel rs tr h
  have hinv := (loopPAA_inv fetch maxQ fuel [] []
    [buildQuery (jsTrim s) url] [] (by simp)).2 (by simp)
  rw [← heq] at hinv
  exact hinv

/-- Witness for C7: the records of the concrete two-item run are
pairwise distinct under lower-casing. -/
theorem getPAA_dedup_pairwise_witness :
    ([(⟨"A", "No answer available", ""⟩ : OutputRecord),
      ⟨"B", "No answer available", ""⟩] : List OutputRecord).Pairwise
        (fun a b => jsToLower a.question ≠ jsToLower b.question) :=
  getPAA_dedup_pairwise pageCap (JSVal.str "k") none 1 5
    [⟨"A", "No answer available", ""⟩, ⟨"B", "No answer available", ""⟩]
    ["k"] rfl

/-- C10: every record of a collector run has a non-empty question, an
item with a missing or empty question is skipped entirely (it changes
neither seen nor results nor the frontier), and a mapped record's
question is exactly the raw item's derived question text. -/
theorem getPAA_question_nonempty_spec
    (fetch : Nat → String → Except JsError (List RawItem))
    (kw : JSVal) (url : Option String) (maxQ fuel : Nat)
    (rs : List OutputRecord) (tr : List String)
    (h : getPAA fetch kw url maxQ fuel = .ok (rs, tr)) :
    (∀ r ∈ rs, r.question ≠ "") ∧
    (∀ (item : RawItem) (rest : List RawItem) (seen : List String)
       (results : List OutputRecord) (queue : List String),
       jsOr item.question "" = "" →
       processItems maxQ (item :: rest) seen results queue =
         processItems maxQ rest seen results queue) ∧
    (∀ item : RawItem, (mapQuestion item).question = jsOr item.question "") := by
  refine ⟨?_,
    fun item rest seen results queue hq =>
      processItems_skip maxQ item rest seen results queue hq,
    fun item => rfl⟩
  obtain ⟨s, _, _, heq⟩ := getPAA_ok_elim fetch kw url maxQ fuel rs tr h
  have hinv := (loopPAA_inv fetch maxQ fuel [] []
    [buildQuery (jsTrim s) url] [] (by simp)).1 (by simp)
  rw [← heq] at hinv
  exact hinv

/-- Witness for C10: the single record of the end-to-end run has a
non-empty question. -/
theorem getPAA_question_nonempty_spec_witness :
    (⟨"Test Question?", "No answer available", ""⟩ : OutputRecord).question ≠ "" :=
  (getPAA_question_nonempty_spec pageSingle (JSVal.str "test keyword") none 12 5
     [⟨"Test Question?", "No answer available", ""⟩]
     ["test keyword", "Test Question?"] rfl).1
    ⟨"Test Question?", "No answer available", ""⟩ (by simp)
